import Mathlib

/-!
# Verification of the accuracy-validation engine (`validate_accuracy.py`)

This file gives a shallow embedding of the validation/matching engine of the
repository: identifier normalization (`normalize_part_id`), value coercion
(`convert_excel_value`), record matching, per-field comparison and
aggregation (`calculate_accuracy`), and the reporting computations
(`print_summary_table` / `create_visualization`), together with theorems
settling the specification claims about them.

Modelling conventions:
* Untyped Python values (JSON fields, spreadsheet cells) become the tagged
  type `Value` with constructors for `None`, float NaN (the value pandas
  uses for an empty cell), `bool`, `int`, `float` (modelled as rationals)
  and `str`.
* Python dicts / pandas rows become association lists (`PyDict`); lookups
  take the first matching key, as dict keys are unique.
* Python semantics that the engine relies on are reproduced explicitly:
  `str()` (`pyStr`), truthiness (`pyTruthy`), `==` across numeric types
  (`pyEq`), binary `max` (`pyMax`), substring `in` (`pyIn`),
  `str.replace(pat, '')` (`pyReplaceEmpty`) and `str.strip()` (`pyStrip`).
  `pyMax` is total; on mixed string/number arguments (where Python would
  raise `TypeError`, a region no theorem below depends on) it returns its
  first argument, which coincides with Python's result for NaN arguments.
-/

namespace AccuracyValidation

/-- Tagged value type for the untyped data the engine consumes: `None`,
float NaN (what pandas stores for an empty spreadsheet cell), booleans,
integers, floats (as rationals) and strings. -/
inductive Value where
  | VNull : Value
  | VNaN : Value
  | VBool : Bool → Value
  | VInt : Int → Value
  | VFloat : Rat → Value
  | VStr : String → Value
deriving DecidableEq

/-- Python `str()` of a value (floats print as their rational form; no
claim depends on the string form of a float). -/
def pyStr : Value → String
  | .VNull => "None"
  | .VNaN => "nan"
  | .VBool true => "True"
  | .VBool false => "False"
  | .VInt n => toString n
  | .VFloat q => toString q
  | .VStr s => s

/-- Python truthiness, used by the `a or b or c` identifier chain. -/
def pyTruthy : Value → Bool
  | .VNull => false
  | .VNaN => true
  | .VBool b => b
  | .VInt n => n != 0
  | .VFloat q => q != 0
  | .VStr s => s != ""

/-- Numeric view of a value: Python compares `bool`, `int` and `float`
on a common number line (`True == 1`); NaN has no numeric view because it
compares unequal to everything, itself included. -/
def pyNumView : Value → Option Rat
  | .VBool true => some 1
  | .VBool false => some 0
  | .VInt n => some (n : Rat)
  | .VFloat q => some q
  | _ => none

/-- Python `==` on values: cross-type numeric equality, string equality,
`None == None`, everything else (NaN included) unequal. -/
def pyEq (a b : Value) : Bool :=
  match pyNumView a, pyNumView b with
  | some x, some y => x == y
  | _, _ =>
    match a, b with
    | .VStr s, .VStr t => s == t
    | .VNull, .VNull => true
    | _, _ => false

/-- Python `max(a, b)`: `b` if `b > a` else `a`. On a pair where Python
would raise `TypeError` the model returns `a` (this also matches Python's
result when an argument is NaN, since NaN comparisons are false). -/
def pyMax (a b : Value) : Value :=
  match pyNumView a, pyNumView b with
  | some x, some y => if x < y then b else a
  | _, _ =>
    match a, b with
    | .VStr s, .VStr t => if s < t then .VStr t else .VStr s
    | _, _ => a

/-- `strContains pat s`: `pat` occurs as a contiguous run inside `s`
(Python's substring `in`, on character lists). -/
def strContains (pat : List Char) : List Char → Bool
  | [] => pat.isEmpty
  | c :: cs => pat.isPrefixOf (c :: cs) || strContains pat cs

/-- Python substring test `a in b` on strings. -/
def pyIn (a b : String) : Bool := strContains a.data b.data

/-- Python `s.lower()` (character-wise lower-casing; ASCII, which is all
the engine's data uses). -/
def pyLower (s : String) : String := String.mk (s.data.map Char.toLower)

/-- A Python dict (or pandas row): an association list keyed by strings;
the first occurrence of a key wins, as dict keys are unique. -/
abbrev PyDict := List (String × Value)

/-- Python `k in d`. -/
def hasKey (d : PyDict) (k : String) : Bool := d.any (fun e => e.1 == k)

/-- Python `d.get(k, dflt)`. -/
def getD (d : PyDict) (k : String) (dflt : Value) : Value := (d.lookup k).getD dflt

/-- Scanner for Python's `s.replace(pat, '')`: walks the string left to
right; a counter records how many characters of a just-matched occurrence
remain to be skipped (matches are non-overlapping and the removed region
is not rescanned, exactly Python's behaviour). -/
def replAux (pat : List Char) : List Char → Nat → List Char
  | [], _ => []
  | _ :: cs, k + 1 => replAux pat cs k
  | c :: cs, 0 =>
    if !pat.isEmpty && pat.isPrefixOf (c :: cs) then
      replAux pat cs (pat.length - 1)
    else
      c :: replAux pat cs 0

/-- Python `s.replace(pat, '')`. -/
def pyReplaceEmpty (pat s : List Char) : List Char := replAux pat s 0

/-- The fixed marker list of `normalize_part_id`, in source order. -/
def suffixMarkers : List (List Char) :=
  ["_drw".data, ".pdf".data, " (1)".data, " (2)".data, ".PDF".data, ".DRW".data]

/-- Python `s.strip()`: drop whitespace from both ends. -/
def pyStrip (s : List Char) : List Char :=
  ((s.dropWhile Char.isWhitespace).reverse.dropWhile Char.isWhitespace).reverse

/-- `normalize_part_id`: remove every occurrence of each marker in order,
then strip surrounding whitespace.  (The Python function first applies
`str()`, the identity on strings; call sites below pass `pyStr` of the
raw value.) -/
def normalize_part_id (s : String) : String :=
  String.mk (pyStrip (suffixMarkers.foldl (fun acc pat => pyReplaceEmpty pat acc) s.data))

/-- `convert_excel_value`: coerce a ground-truth cell to the binary 0/1
domain.  `pd.isna` catches `None` and NaN first; the `bool` test precedes
the numeric test exactly as in the source. -/
def convert_excel_value : Value → Int
  | .VNull => 0
  | .VNaN => 0
  | .VBool b => if b then 1 else 0
  | .VInt n => if 0 < n then 1 else 0
  | .VFloat q => if 0 < q then 1 else 0
  | .VStr _ => 0

/-- `create_process_map()`: prediction key → Excel column, in dict
insertion order. -/
def create_process_map : List (String × String) :=
  [("laser_cut", "Laser Cut"),
   ("saw_shear", "Saw/Shear"),
   ("break_press", "Break Press"),
   ("fab", "Fab Weld"),
   ("weld", "Fab Weld"),
   ("painting", "Painting"),
   ("heat_treat", "Heat Treat"),
   ("plating", "Plating"),
   ("cnc_machining_turning", "CNC Machining /Turning"),
   ("metal_rolling", "Metal Rolling"),
   ("casting_forging", "Casting / Forging"),
   ("tube_bending", "Tube Bending"),
   ("metal_spinning", "Metal Spinning"),
   ("turret_punch_stamping", "Turret Punch /Metal Stamping"),
   ("press", "Press Inserts"),
   ("inserts", "Press Inserts")]

/-- `initialize_parameters()`: the 17 tracked parameter names. -/
def initialize_parameters : List String :=
  ["Complexity Level",
   "Type",
   "Material",
   "Laser Cut",
   "Saw/Shear",
   "Break Press",
   "Fab Weld",
   "Painting",
   "Heat Treat",
   "Plating",
   "CNC Machining /Turning",
   "Metal Rolling",
   "Casting / Forging",
   "Tube Bending",
   "Metal Spinning",
   "Turret Punch /Metal Stamping",
   "Press Inserts"]

/-- Per-parameter counters: `(name, correct, total)`. -/
abbrev Stats := List (String × Nat × Nat)

/-- `{param: {'correct': 0, 'total': 0} for param in all_params}`. -/
def initStats : Stats := initialize_parameters.map (fun p => (p, 0, 0))

/-- `parameter_stats[key]['total'] += 1` followed by the guarded
`parameter_stats[key]['correct'] += 1`: bump the entry named `key`. -/
def bump (ok : Bool) (key : String) (s : Stats) : Stats :=
  s.map (fun e => if e.1 = key then (e.1, e.2.1 + (if ok then 1 else 0), e.2.2 + 1) else e)

/-- One iteration of the manufacturing-process loop of
`calculate_accuracy`, for the `(pred_key, excel_col)` pair `pc`. -/
def procStep (pred actual : PyDict) (s : Stats) (pc : String × String) : Stats :=
  if !(hasKey pred pc.1 && hasKey actual pc.2) then s
  else if pc.2 == "Fab Weld" then
    if pc.1 == "fab" then
      bump (pyEq (pyMax (getD pred "fab" (.VInt 0)) (getD pred "weld" (.VInt 0)))
            (.VInt (convert_excel_value (getD actual pc.2 .VNull)))) pc.2 s
    else s
  else if pc.2 == "Press Inserts" then
    if pc.1 == "press" then
      bump (pyEq (pyMax (getD pred "press" (.VInt 0)) (getD pred "inserts" (.VInt 0)))
            (.VInt (convert_excel_value (getD actual pc.2 .VNull)))) pc.2 s
    else s
  else
    if pc.1 != "weld" && pc.1 != "inserts" then
      bump (pyEq (getD pred pc.1 .VNull) (.VInt (convert_excel_value (getD actual pc.2 .VNull))))
        pc.2 s
    else s

/-- The Complexity Level check of `calculate_accuracy`.  Note the
ground-truth side condition is `'Complexity Level' in actual`, i.e. the
column exists on the row; the cell value itself is not inspected. -/
def checkComplexity (pred actual : PyDict) (s : Stats) : Stats :=
  if hasKey pred "complexity_level" && hasKey actual "Complexity Level" then
    bump (pyLower (pyStr (getD pred "complexity_level" (.VStr ""))) ==
          pyLower (pyStr (getD actual "Complexity Level" (.VStr "")))) "Complexity Level" s
  else s

/-- The Type check of `calculate_accuracy`. -/
def checkType (pred actual : PyDict) (s : Stats) : Stats :=
  if hasKey pred "type" && hasKey actual "Type" then
    bump (pyLower (pyStr (getD pred "type" (.VStr ""))) ==
          pyLower (pyStr (getD actual "Type" (.VStr "")))) "Type" s
  else s

/-- The Material check of `calculate_accuracy` (substring containment in
either direction, after lower-casing). -/
def checkMaterial (pred actual : PyDict) (s : Stats) : Stats :=
  if hasKey pred "material" && hasKey actual "Material" then
    bump (pyIn (pyLower (pyStr (getD pred "material" (.VStr ""))))
            (pyLower (pyStr (getD actual "Material" (.VStr "")))) ||
          pyIn (pyLower (pyStr (getD actual "Material" (.VStr ""))))
            (pyLower (pyStr (getD pred "material" (.VStr ""))))) "Material" s
  else s

/-- Evaluation of one matched (prediction, ground-truth) pair: the three
categorical checks followed by the manufacturing-process loop. -/
def scoreRecord (procMap : List (String × String)) (pred actual : PyDict) (s : Stats) : Stats :=
  procMap.foldl (procStep pred actual)
    (checkMaterial pred actual (checkType pred actual (checkComplexity pred actual s)))

/-- The prediction's source identifier:
`pred.get('part_identifier') or pred.get('part_name') or
pred.get('source_file', '')`, then `normalize_part_id` (which applies
`str()`). -/
def partIdOf (pred : PyDict) : String :=
  let a := (pred.lookup "part_identifier").getD .VNull
  let b := (pred.lookup "part_name").getD .VNull
  let c := (pred.lookup "source_file").getD (.VStr "")
  normalize_part_id (pyStr (if pyTruthy a then a else if pyTruthy b then b else c))

/-- The matching rows of the ground-truth table:
`ground_truth_df['Part ID'].astype(str).apply(normalize_part_id) == part_id`. -/
def matchRows (gt : List PyDict) (pid : String) : List PyDict :=
  gt.filter (fun row => normalize_part_id (pyStr (getD row "Part ID" .VNull)) == pid)

/-- The loop body of `calculate_accuracy` for one prediction record: skip
it if no ground-truth row matches, otherwise score it against the first
matching row. -/
def processOne (procMap : List (String × String)) (gt : List PyDict) (s : Stats)
    (pred : PyDict) : Stats :=
  match matchRows gt (partIdOf pred) with
  | [] => s
  | actual :: _ => scoreRecord procMap pred actual s

/-- `calculate_accuracy(predictions, ground_truth_df, process_map)`. -/
def calculate_accuracy (predictions : List PyDict) (gt : List PyDict)
    (procMap : List (String × String)) : Stats :=
  predictions.foldl (processOne procMap gt) initStats

/-- The per-parameter rows reported by `print_summary_table`: parameters
with `total == 0` are skipped; each kept row carries its accuracy
percentage (whose inner `total > 0` guard is kept from the source). -/
def summaryRows (stats : Stats) : List (String × Nat × Nat × Rat) :=
  stats.filterMap (fun e =>
    if e.2.2 = 0 then none
    else some (e.1, e.2.1, e.2.2,
      if 0 < e.2.2 then (e.2.1 : Rat) / (e.2.2 : Rat) * 100 else 0))

/-- The overall accuracy computed by `create_visualization`: sums of
`correct` and `total` over every parameter, percentage `0` when the grand
total is zero. -/
def overallVis (stats : Stats) : Rat × Nat × Nat :=
  let oc : Nat := (stats.map (fun e => e.2.1)).sum
  let ot : Nat := (stats.map (fun e => e.2.2)).sum
  (if 0 < ot then (oc : Rat) / (ot : Rat) * 100 else 0, oc, ot)

/-- The overall accuracy computed by `print_summary_table`: sums over the
parameters that were not skipped (`total != 0`), percentage `0` when the
grand total is zero. -/
def overallSummary (stats : Stats) : Rat :=
  let rows := stats.filter (fun e => e.2.2 != 0)
  let oc : Nat := (rows.map (fun e => e.2.1)).sum
  let ot : Nat := (rows.map (fun e => e.2.2)).sum
  if 0 < ot then (oc : Rat) / (ot : Rat) * 100 else 0

/-- The prediction keys `calculate_accuracy` reads: the identifier keys,
the categorical keys, and the process-map keys. -/
def relevantKeys : List String :=
  ["part_identifier", "part_name", "source_file",
   "complexity_level", "type", "material"] ++ create_process_map.map (fun pc => pc.1)

/-- Python dict indexing `parameter_stats[param]`: the counters stored
under a parameter name (`none` when the name is not tracked). -/
def lookupStat (k : String) : Stats → Option (Nat × Nat)
  | [] => none
  | e :: t => if e.1 = k then some e.2 else lookupStat k t

/-- The counter invariant: every tracked parameter has `correct ≤ total`. -/
def StatsInv (s : Stats) : Prop := ∀ e ∈ s, e.2.1 ≤ e.2.2

/-- A stats transformer commutes with every counter bump (all the
engine's updates are such transformers; this is what makes accumulation
order-independent). -/
def BumpComm (f : Stats → Stats) : Prop :=
  ∀ ok k s, f (bump ok k s) = bump ok k (f s)

/-! ## Lemmas about the normalizer -/

theorem replAux_eq_self (pat : List Char) (s : List Char)
    (h : strContains pat s = false) : replAux pat s 0 = s := by
  induction s with
  | nil => rfl
  | cons c cs ih =>
    simp only [strContains, Bool.or_eq_false_iff] at h
    have hstep : replAux pat (c :: cs) 0 = c :: replAux pat cs 0 := by
      simp [replAux, h.1]
    rw [hstep, ih h.2]

theorem foldl_replace_eq_self (pats : List (List Char)) (t : List Char)
    (h : ∀ pat ∈ pats, strContains pat t = false) :
    pats.foldl (fun acc pat => pyReplaceEmpty pat acc) t = t := by
  induction pats with
  | nil => rfl
  | cons p ps ih =>
    rw [List.foldl_cons,
      show pyReplaceEmpty p t = t from replAux_eq_self p t (h p (List.mem_cons_self p ps))]
    exact ih fun pat hp => h pat (List.mem_cons_of_mem _ hp)

theorem pyStrip_eq_rdropWhile (s : List Char) :
    pyStrip s = List.rdropWhile Char.isWhitespace (s.dropWhile Char.isWhitespace) := rfl

theorem pyStrip_idem (s : List Char) : pyStrip (pyStrip s) = pyStrip s := by
  rw [pyStrip_eq_rdropWhile s, pyStrip_eq_rdropWhile]
  set p := Char.isWhitespace
  set t := List.rdropWhile p (s.dropWhile p) with ht
  have hself : t.dropWhile p = t := by
    rw [List.dropWhile_eq_self_iff]
    intro hl
    have hpre : t <+: s.dropWhile p := ht ▸ List.rdropWhile_prefix p (s.dropWhile p)
    have hlen : 0 < (s.dropWhile p).length := lt_of_lt_of_le hl hpre.length_le
    have hhead : ¬ p ((s.dropWhile p).get ⟨0, hlen⟩) := by
      have hself2 : (s.dropWhile p).dropWhile p = s.dropWhile p :=
        List.dropWhile_idempotent p s
      exact (List.dropWhile_eq_self_iff.mp hself2) hlen
    have hg : (s.dropWhile p)[0] = t[0] := (hpre.getElem hl).symm
    simpa [List.get_eq_getElem, ← hg] using hhead
  rw [hself, ht, List.rdropWhile_idempotent]

/-! ## Claim C9 -/

/-- C9: the normalizer removes every occurrence of each marker
`'_drw', '.pdf', ' (1)', ' (2)', '.PDF', '.DRW'` in that order — anywhere
in the string, not only as a trailing suffix — and then trims surrounding
whitespace; in particular `normalize("part_drw_001.pdf") = "part_001"`,
with `'_drw'` removed from the interior. -/
theorem c9_marker_removal_anywhere :
    (∀ s : String, normalize_part_id s =
      String.mk (pyStrip (pyReplaceEmpty ".DRW".data (pyReplaceEmpty ".PDF".data
        (pyReplaceEmpty " (2)".data (pyReplaceEmpty " (1)".data
          (pyReplaceEmpty ".pdf".data (pyReplaceEmpty "_drw".data s.data)))))))) ∧
    normalize_part_id "part_drw_001.pdf" = "part_001" ∧
    normalize_part_id "a_drwb.pdfc" = "abc" ∧
    normalize_part_id "  spaced  " = "spaced" :=
  ⟨fun _ => rfl, by decide, by decide, by decide⟩

/-! ## Claim C3 -/

/-- C3 counterexample: the normalizer is not idempotent.  On
`"_dr_drww"` the single pass of `replace('_drw', '')` removes the
occurrence at offset 3 and the surviving characters re-form `"_drw"`,
which a second application removes. -/
theorem c3_counterexample_not_idempotent :
    ¬ (normalize_part_id (normalize_part_id "_dr_drww") =
        normalize_part_id "_dr_drww") := by decide

/-- C3 amended: the normalizer is idempotent on every string whose
normalized form contains no occurrence of any of the six markers (the
general claim fails, see the counterexample). -/
theorem c3_amended_idempotent_when_marker_free (s : String)
    (h : (suffixMarkers.all fun pat =>
      !(strContains pat (normalize_part_id s).data)) = true) :
    normalize_part_id (normalize_part_id s) = normalize_part_id s := by
  have hm : ∀ pat ∈ suffixMarkers, strContains pat (normalize_part_id s).data = false := by
    intro pat hp
    simpa using List.all_eq_true.mp h pat hp
  show String.mk (pyStrip (suffixMarkers.foldl (fun acc pat => pyReplaceEmpty pat acc)
    (normalize_part_id s).data)) = normalize_part_id s
  rw [foldl_replace_eq_self _ _ hm]
  show String.mk (pyStrip (pyStrip (suffixMarkers.foldl
    (fun acc pat => pyReplaceEmpty pat acc) s.data))) = _
  rw [pyStrip_idem]
  rfl

/-- Witness for C3 amended at `" part_001.pdf "`. -/
theorem c3_amended_witness :
    normalize_part_id (normalize_part_id " part_001.pdf ") =
      normalize_part_id " part_001.pdf " :=
  c3_amended_idempotent_when_marker_free " part_001.pdf " (by decide)

/-! ## Claim C4 -/

/-- C4: the value coercer is total with range `{0, 1}`: null/missing
(`None` and NaN) map to 0, booleans to 1/0, numerics to 1 iff strictly
positive (so `coerce(-5) = 0`), and any other type to 0
(`coerce("yes") = 0`, `coerce(True) = 1`). -/
theorem c4_coercer_total :
    (∀ v : Value, convert_excel_value v = 0 ∨ convert_excel_value v = 1) ∧
    convert_excel_value (.VInt (-5)) = 0 ∧
    convert_excel_value (.VFloat (-5)) = 0 ∧
    convert_excel_value (.VStr "yes") = 0 ∧
    convert_excel_value (.VBool true) = 1 ∧
    convert_excel_value .VNull = 0 ∧
    convert_excel_value .VNaN = 0 := by
  refine ⟨fun v => ?_, by decide, by norm_num [convert_excel_value], by decide, rfl, rfl, rfl⟩
  cases v with
  | VNull => exact Or.inl rfl
  | VNaN => exact Or.inl rfl
  | VStr t => exact Or.inl rfl
  | VBool b =>
    cases b with
    | false => exact Or.inl rfl
    | true => exact Or.inr rfl
  | VInt n =>
    by_cases h : 0 < n
    · exact Or.inr (by simp [convert_excel_value, h])
    · exact Or.inl (by simp [convert_excel_value, h])
  | VFloat q =>
    by_cases h : 0 < q
    · exact Or.inr (by simp [convert_excel_value, h])
    · exact Or.inl (by simp [convert_excel_value, h])

/-! ## Claim C5 -/

/-- C5: a prediction whose normalized identifier matches no ground-truth
row leaves every parameter's counters unchanged: removing it from the
prediction sequence does not change the result, and the remaining
predictions are still processed. -/
theorem c5_unmatched_prediction_skipped (pred : PyDict) (gt : List PyDict)
    (procMap : List (String × String)) (pre post : List PyDict)
    (h : matchRows gt (partIdOf pred) = []) :
    calculate_accuracy (pre ++ pred :: post) gt procMap =
      calculate_accuracy (pre ++ post) gt procMap := by
  unfold calculate_accuracy
  rw [List.foldl_append, List.foldl_append, List.foldl_cons]
  congr 1
  unfold processOne
  rw [h]

/-- Witness for C5: `source_file: "unknown.pdf"` against a table whose
only Part ID is `"bracket_001"`. -/
theorem c5_witness :
    calculate_accuracy ([] ++ [("source_file", Value.VStr "unknown.pdf")] :: [])
        [[("Part ID", Value.VStr "bracket_001")]] create_process_map =
      calculate_accuracy ([] ++ [])
        [[("Part ID", Value.VStr "bracket_001")]] create_process_map :=
  c5_unmatched_prediction_skipped [("source_file", Value.VStr "unknown.pdf")]
    [[("Part ID", Value.VStr "bracket_001")]] create_process_map [] [] (by decide)

/-! ## Claim C6 -/

theorem foldl_processOne_nil_gt (procMap : List (String × String))
    (preds : List PyDict) (s : Stats) :
    preds.foldl (processOne procMap []) s = s := by
  induction preds generalizing s with
  | nil => rfl
  | cons p ps ih => rw [List.foldl_cons]; exact ih s

/-- C6: a parameter with `total = 0` is excluded from the per-parameter
percentage report (no division is performed for it), and the overall
accuracy is `0` whenever the grand total is zero — in particular for
empty inputs (no predictions, or no ground-truth rows). -/
theorem c6_zero_guards :
    (∀ stats : Stats, ∀ r ∈ summaryRows stats, r.2.2.1 ≠ 0) ∧
    (∀ stats : Stats, (stats.map (fun e => e.2.2)).sum = 0 →
      (overallVis stats).1 = 0 ∧ overallSummary stats = 0) ∧
    (∀ gt procMap, overallVis (calculate_accuracy [] gt procMap) = (0, 0, 0)) ∧
    (∀ preds procMap, overallVis (calculate_accuracy preds [] procMap) = (0, 0, 0)) := by
  refine ⟨?_, ?_, ?_, ?_⟩
  · intro stats r hr
    rcases List.mem_filterMap.mp hr with ⟨e, _, he⟩
    by_cases h0 : e.2.2 = 0
    · simp [h0] at he
    · simp only [if_neg h0] at he
      injection he with he
      rw [← he]
      exact h0
  · intro stats hsum
    have hall : ∀ e ∈ stats, e.2.2 = 0 := by
      intro e he
      exact List.sum_eq_zero_iff.mp hsum _ (List.mem_map_of_mem _ he)
    constructor
    · simp [overallVis, hsum]
    · have hnil : stats.filter (fun e => e.2.2 != 0) = [] := by
        rw [List.filter_eq_nil_iff]
        intro e he
        simp [hall e he]
      simp [overallSummary, hnil]
  · intro gt procMap
    show overallVis initStats = (0, 0, 0)
    decide
  · intro preds procMap
    unfold calculate_accuracy
    rw [foldl_processOne_nil_gt]
    decide

/-- Witness for C6: a reported row at a concrete stats table, and the
zero-grand-total overall accuracy at a concrete all-zero table. -/
theorem c6_witness :
    ("Laser Cut", 1, 2, (50 : Rat)).2.2.1 ≠ 0 ∧
      (overallVis [("Material", 0, 0)]).1 = 0 :=
  ⟨c6_zero_guards.1 [("Laser Cut", 1, 2)] ("Laser Cut", 1, 2, (50 : Rat))
      (by norm_num [summaryRows]),
    (c6_zero_guards.2.1 [("Material", 0, 0)] (by decide)).1⟩

/-! ## Lemmas about the counters -/

theorem bump_keys (ok : Bool) (k : String) (s : Stats) :
    (bump ok k s).map (fun e => e.1) = s.map (fun e => e.1) := by
  unfold bump
  rw [List.map_map]
  apply List.map_congr_left
  intro e _
  by_cases h : e.1 = k <;> simp [h]

theorem lookupStat_bump (ok : Bool) (k k2 : String) (s : Stats) :
    lookupStat k2 (bump ok k s) =
      if k2 = k then
        (lookupStat k2 s).map (fun ct => (ct.1 + (if ok then 1 else 0), ct.2 + 1))
      else lookupStat k2 s := by
  induction s with
  | nil => simp [bump, lookupStat]
  | cons e t ih =>
    simp only [bump, List.map_cons] at ih ⊢
    by_cases he : e.1 = k
    · by_cases h2 : e.1 = k2
      · have hk : k2 = k := h2.symm.trans he
        simp [lookupStat, he, h2, hk]
      · have hk : ¬ k2 = k := fun hh => h2 (he.trans hh.symm)
        have hk2 : ¬ k = k2 := fun hh => hk hh.symm
        simp [lookupStat, he, h2, hk, hk2, ih]
    · by_cases h2 : e.1 = k2
      · have hk : ¬ k2 = k := fun hh => he (h2.trans hh)
        simp [lookupStat, he, h2, hk]
      · simp [lookupStat, he, h2, ih]

theorem procStep_is_bump (pred actual : PyDict) (pc : String × String) :
    (∀ s, procStep pred actual s pc = s) ∨
    ∃ ok, ∀ s, procStep pred actual s pc = bump ok pc.2 s := by
  by_cases h1 : !(hasKey pred pc.1 && hasKey actual pc.2)
  · exact Or.inl fun s => by unfold procStep; rw [if_pos h1]
  · by_cases h2 : pc.2 == "Fab Weld"
    · by_cases h3 : pc.1 == "fab"
      · refine Or.inr ⟨pyEq (pyMax (getD pred "fab" (.VInt 0)) (getD pred "weld" (.VInt 0)))
            (.VInt (convert_excel_value (getD actual pc.2 .VNull))), fun s => ?_⟩
        unfold procStep
        rw [if_neg h1, if_pos h2, if_pos h3]
      · exact Or.inl fun s => by unfold procStep; rw [if_neg h1, if_pos h2, if_neg h3]
    · by_cases h4 : pc.2 == "Press Inserts"
      · by_cases h5 : pc.1 == "press"
        · refine Or.inr ⟨pyEq (pyMax (getD pred "press" (.VInt 0))
              (getD pred "inserts" (.VInt 0)))
              (.VInt (convert_excel_value (getD actual pc.2 .VNull))), fun s => ?_⟩
          unfold procStep
          rw [if_neg h1, if_neg h2, if_pos h4, if_pos h5]
        · exact Or.inl fun s => by
            unfold procStep; rw [if_neg h1, if_neg h2, if_pos h4, if_neg h5]
      · by_cases h6 : pc.1 != "weld" && pc.1 != "inserts"
        · refine Or.inr ⟨pyEq (getD pred pc.1 .VNull)
              (.VInt (convert_excel_value (getD actual pc.2 .VNull))), fun s => ?_⟩
          unfold procStep
          rw [if_neg h1, if_neg h2, if_neg h4, if_pos h6]
        · exact Or.inl fun s => by
            unfold procStep; rw [if_neg h1, if_neg h2, if_neg h4, if_neg h6]

theorem lookupStat_procStep_ne (pred actual : PyDict) (s : Stats)
    (pc : String × String) (k : String) (h : pc.2 ≠ k) :
    lookupStat k (procStep pred actual s pc) = lookupStat k s := by
  rcases procStep_is_bump pred actual pc with hid | ⟨ok, hb⟩
  · rw [hid]
  · rw [hb, lookupStat_bump, if_neg (fun hh => h hh.symm)]

theorem procStep_weld_id (pred actual : PyDict) (s : Stats) :
    procStep pred actual s ("weld", "Fab Weld") = s := by
  unfold procStep
  split
  · rfl
  · simp

theorem procStep_inserts_id (pred actual : PyDict) (s : Stats) :
    procStep pred actual s ("inserts", "Press Inserts") = s := by
  unfold procStep
  split
  · rfl
  · simp

theorem lookupStat_foldl_proc_ne (pred actual : PyDict)
    (pm : List (String × String)) (s : Stats) (k : String)
    (h : ∀ pc ∈ pm, pc.2 ≠ k) :
    lookupStat k (pm.foldl (procStep pred actual) s) = lookupStat k s := by
  induction pm generalizing s with
  | nil => rfl
  | cons pc t ih =>
    rw [List.foldl_cons, ih _ fun x hx => h x (List.mem_cons_of_mem _ hx),
      lookupStat_procStep_ne pred actual s pc k (h pc (List.mem_cons_self pc t))]

theorem lookupStat_checkComplexity_ne (pred actual : PyDict) (s : Stats)
    (k : String) (h : k ≠ "Complexity Level") :
    lookupStat k (checkComplexity pred actual s) = lookupStat k s := by
  unfold checkComplexity
  split
  · rw [lookupStat_bump, if_neg h]
  · rfl

theorem lookupStat_checkType_ne (pred actual : PyDict) (s : Stats)
    (k : String) (h : k ≠ "Type") :
    lookupStat k (checkType pred actual s) = lookupStat k s := by
  unfold checkType
  split
  · rw [lookupStat_bump, if_neg h]
  · rfl

theorem lookupStat_checkMaterial_ne (pred actual : PyDict) (s : Stats)
    (k : String) (h : k ≠ "Material") :
    lookupStat k (checkMaterial pred actual s) = lookupStat k s := by
  unfold checkMaterial
  split
  · rw [lookupStat_bump, if_neg h]
  · rfl

theorem procStep_fab_formula (pred actual : PyDict) (s : Stats) :
    procStep pred actual s ("fab", "Fab Weld") =
      if hasKey pred "fab" && hasKey actual "Fab Weld" then
        bump (pyEq (pyMax (getD pred "fab" (.VInt 0)) (getD pred "weld" (.VInt 0)))
          (.VInt (convert_excel_value (getD actual "Fab Weld" .VNull)))) "Fab Weld" s
      else s := by
  by_cases h : hasKey pred "fab" && hasKey actual "Fab Weld" <;> simp [procStep, h]

theorem procStep_press_formula (pred actual : PyDict) (s : Stats) :
    procStep pred actual s ("press", "Press Inserts") =
      if hasKey pred "press" && hasKey actual "Press Inserts" then
        bump (pyEq (pyMax (getD pred "press" (.VInt 0)) (getD pred "inserts" (.VInt 0)))
          (.VInt (convert_excel_value (getD actual "Press Inserts" .VNull)))) "Press Inserts" s
      else s := by
  by_cases h : hasKey pred "press" && hasKey actual "Press Inserts" <;> simp [procStep, h]

theorem calculate_single_matched (pred : PyDict) (gt : List PyDict)
    (actual : PyDict) (rest : List PyDict) (procMap : List (String × String))
    (h : matchRows gt (partIdOf pred) = actual :: rest) :
    calculate_accuracy [pred] gt procMap = scoreRecord procMap pred actual initStats := by
  unfold calculate_accuracy
  rw [List.foldl_cons, List.foldl_nil]
  unfold processOne
  rw [h]

/-! ## Claim C1 -/

/-- C1 counterexample: a prediction carrying the constituent key `weld`
(but not `fab`) matched against a ground-truth row whose `Fab Weld`
column is present and 1: the claim requires the `Fab Weld` counters to be
updated exactly once, but the engine leaves them at `(0, 0)` — the
combined column is only evaluated from the `fab` key. -/
theorem c1_counterexample_weld_only_not_counted :
    hasKey [("source_file", Value.VStr "p1"), ("weld", Value.VInt 1)] "weld" = true ∧
    matchRows [[("Part ID", Value.VStr "p1"), ("Fab Weld", Value.VInt 1)]]
        (partIdOf [("source_file", Value.VStr "p1"), ("weld", Value.VInt 1)]) =
      [[("Part ID", Value.VStr "p1"), ("Fab Weld", Value.VInt 1)]] ∧
    lookupStat "Fab Weld"
        (calculate_accuracy [[("source_file", Value.VStr "p1"), ("weld", Value.VInt 1)]]
          [[("Part ID", Value.VStr "p1"), ("Fab Weld", Value.VInt 1)]]
          create_process_map) = some (0, 0) := by
  refine ⟨rfl, by decide, by decide⟩

/-- C1 amended: for a matched pair, a combined column's counters are
updated exactly once iff the *primary* constituent key (`fab` for
`Fab Weld`, `press` for `Press Inserts`) is present on the prediction and
the column is present on the ground-truth row (a prediction carrying only
the secondary key `weld`/`inserts` is not counted); when counted, the
derived predicted value is `max` of the two constituents (absent ones
defaulting to 0), correct iff it equals `coerce` of the ground-truth
cell. -/
theorem c1_amended_combined_columns (pred : PyDict) (gt : List PyDict)
    (actual : PyDict) (rest : List PyDict)
    (h : matchRows gt (partIdOf pred) = actual :: rest) :
    lookupStat "Fab Weld" (calculate_accuracy [pred] gt create_process_map) =
      (if hasKey pred "fab" && hasKey actual "Fab Weld" then
        some ((if pyEq (pyMax (getD pred "fab" (.VInt 0)) (getD pred "weld" (.VInt 0)))
                (.VInt (convert_excel_value (getD actual "Fab Weld" .VNull)))
               then 1 else 0), 1)
       else some (0, 0)) ∧
    lookupStat "Press Inserts" (calculate_accuracy [pred] gt create_process_map) =
      (if hasKey pred "press" && hasKey actual "Press Inserts" then
        some ((if pyEq (pyMax (getD pred "press" (.VInt 0)) (getD pred "inserts" (.VInt 0)))
                (.VInt (convert_excel_value (getD actual "Press Inserts" .VNull)))
               then 1 else 0), 1)
       else some (0, 0)) := by
  rw [calculate_single_matched pred gt actual rest create_process_map h]
  unfold scoreRecord
  constructor
  · rw [show create_process_map =
        [("laser_cut", "Laser Cut"), ("saw_shear", "Saw/Shear"), ("break_press", "Break Press")] ++
          ("fab", "Fab Weld") :: ("weld", "Fab Weld") ::
          [("painting", "Painting"), ("heat_treat", "Heat Treat"), ("plating", "Plating"),
           ("cnc_machining_turning", "CNC Machining /Turning"),
           ("metal_rolling", "Metal Rolling"), ("casting_forging", "Casting / Forging"),
           ("tube_bending", "Tube Bending"), ("metal_spinning", "Metal Spinning"),
           ("turret_punch_stamping", "Turret Punch /Metal Stamping"),
           ("press", "Press Inserts"), ("inserts", "Press Inserts")] from rfl,
      List.foldl_append, List.foldl_cons, List.foldl_cons]
    rw [lookupStat_foldl_proc_ne pred actual
        [("painting", "Painting"), ("heat_treat", "Heat Treat"), ("plating", "Plating"),
         ("cnc_machining_turning", "CNC Machining /Turning"),
         ("metal_rolling", "Metal Rolling"), ("casting_forging", "Casting / Forging"),
         ("tube_bending", "Tube Bending"), ("metal_spinning", "Metal Spinning"),
         ("turret_punch_stamping", "Turret Punch /Metal Stamping"),
         ("press", "Press Inserts"), ("inserts", "Press Inserts")] _ "Fab Weld" (by decide),
      procStep_weld_id, procStep_fab_formula]
    by_cases hg : hasKey pred "fab" && hasKey actual "Fab Weld"
    · rw [if_pos hg, if_pos hg, lookupStat_bump, if_pos rfl,
        lookupStat_foldl_proc_ne pred actual
          [("laser_cut", "Laser Cut"), ("saw_shear", "Saw/Shear"),
           ("break_press", "Break Press")] _ "Fab Weld" (by decide),
        lookupStat_checkMaterial_ne pred actual _ "Fab Weld" (by decide),
        lookupStat_checkType_ne pred actual _ "Fab Weld" (by decide),
        lookupStat_checkComplexity_ne pred actual _ "Fab Weld" (by decide)]
      rw [(by decide : lookupStat "Fab Weld" initStats = some (0, 0))]
      simp
    · rw [if_neg hg, if_neg hg,
        lookupStat_foldl_proc_ne pred actual
          [("laser_cut", "Laser Cut"), ("saw_shear", "Saw/Shear"),
           ("break_press", "Break Press")] _ "Fab Weld" (by decide),
        lookupStat_checkMaterial_ne pred actual _ "Fab Weld" (by decide),
        lookupStat_checkType_ne pred actual _ "Fab Weld" (by decide),
        lookupStat_checkComplexity_ne pred actual _ "Fab Weld" (by decide)]
      decide
  · rw [show create_process_map =
        [("laser_cut", "Laser Cut"), ("saw_shear", "Saw/Shear"), ("break_press", "Break Press"),
         ("fab", "Fab Weld"), ("weld", "Fab Weld"),
         ("painting", "Painting"), ("heat_treat", "Heat Treat"), ("plating", "Plating"),
         ("cnc_machining_turning", "CNC Machining /Turning"),
         ("metal_rolling", "Metal Rolling"), ("casting_forging", "Casting / Forging"),
         ("tube_bending", "Tube Bending"), ("metal_spinning", "Metal Spinning"),
         ("turret_punch_stamping", "Turret Punch /Metal Stamping")] ++
          ("press", "Press Inserts") :: ("inserts", "Press Inserts") :: [] from rfl,
      List.foldl_append, List.foldl_cons, List.foldl_cons, List.foldl_nil,
      procStep_inserts_id, procStep_press_formula]
    by_cases hg : hasKey pred "press" && hasKey actual "Press Inserts"
    · rw [if_pos hg, if_pos hg, lookupStat_bump, if_pos rfl,
        lookupStat_foldl_proc_ne pred actual
          [("laser_cut", "Laser Cut"), ("saw_shear", "Saw/Shear"), ("break_press", "Break Press"),
           ("fab", "Fab Weld"), ("weld", "Fab Weld"),
           ("painting", "Painting"), ("heat_treat", "Heat Treat"), ("plating", "Plating"),
           ("cnc_machining_turning", "CNC Machining /Turning"),
           ("metal_rolling", "Metal Rolling"), ("casting_forging", "Casting / Forging"),
           ("tube_bending", "Tube Bending"), ("metal_spinning", "Metal Spinning"),
           ("turret_punch_stamping", "Turret Punch /Metal Stamping")] _ "Press Inserts"
          (by decide),
        lookupStat_checkMaterial_ne pred actual _ "Press Inserts" (by decide),
        lookupStat_checkType_ne pred actual _ "Press Inserts" (by decide),
        lookupStat_checkComplexity_ne pred actual _ "Press Inserts" (by decide)]
      rw [(by decide : lookupStat "Press Inserts" initStats = some (0, 0))]
      simp
    · rw [if_neg hg, if_neg hg,
        lookupStat_foldl_proc_ne pred actual
          [("laser_cut", "Laser Cut"), ("saw_shear", "Saw/Shear"), ("break_press", "Break Press"),
           ("fab", "Fab Weld"), ("weld", "Fab Weld"),
           ("painting", "Painting"), ("heat_treat", "Heat Treat"), ("plating", "Plating"),
           ("cnc_machining_turning", "CNC Machining /Turning"),
           ("metal_rolling", "Metal Rolling"), ("casting_forging", "Casting / Forging"),
           ("tube_bending", "Tube Bending"), ("metal_spinning", "Metal Spinning"),
           ("turret_punch_stamping", "Turret Punch /Metal Stamping")] _ "Press Inserts"
          (by decide),
        lookupStat_checkMaterial_ne pred actual _ "Press Inserts" (by decide),
        lookupStat_checkType_ne pred actual _ "Press Inserts" (by decide),
        lookupStat_checkComplexity_ne pred actual _ "Press Inserts" (by decide)]
      decide

/-- Witness for C1 amended: spec scenario B, `{fab: 1, weld: 0}` against
`Fab Weld = 1` (counted once and correct), with no `press` key (Press
Inserts left at `(0, 0)`). -/
theorem c1_amended_witness :
    lookupStat "Fab Weld"
        (calculate_accuracy
          [[("source_file", Value.VStr "p1"), ("fab", Value.VInt 1), ("weld", Value.VInt 0)]]
          [[("Part ID", Value.VStr "p1"), ("Fab Weld", Value.VInt 1)]]
          create_process_map) =
      (if hasKey [("source_file", Value.VStr "p1"), ("fab", Value.VInt 1),
            ("weld", Value.VInt 0)] "fab" &&
          hasKey [("Part ID", Value.VStr "p1"), ("Fab Weld", Value.VInt 1)] "Fab Weld" then
        some ((if pyEq (pyMax
                  (getD [("source_file", Value.VStr "p1"), ("fab", Value.VInt 1),
                    ("weld", Value.VInt 0)] "fab" (.VInt 0))
                  (getD [("source_file", Value.VStr "p1"), ("fab", Value.VInt 1),
                    ("weld", Value.VInt 0)] "weld" (.VInt 0)))
                (.VInt (convert_excel_value
                  (getD [("Part ID", Value.VStr "p1"), ("Fab Weld", Value.VInt 1)]
                    "Fab Weld" .VNull)))
               then 1 else 0), 1)
       else some (0, 0)) :=
  (c1_amended_combined_columns
    [("source_file", Value.VStr "p1"), ("fab", Value.VInt 1), ("weld", Value.VInt 0)]
    [[("Part ID", Value.VStr "p1"), ("Fab Weld", Value.VInt 1)]]
    [("Part ID", Value.VStr "p1"), ("Fab Weld", Value.VInt 1)] [] (by decide)).1

/-! ## Claim C2 -/

theorem lookupStat_checkComplexity_self (pred actual : PyDict) (s : Stats) :
    lookupStat "Complexity Level" (checkComplexity pred actual s) =
      if hasKey pred "complexity_level" && hasKey actual "Complexity Level" then
        (lookupStat "Complexity Level" s).map (fun ct =>
          (ct.1 + (if pyLower (pyStr (getD pred "complexity_level" (.VStr ""))) ==
              pyLower (pyStr (getD actual "Complexity Level" (.VStr ""))) then 1 else 0),
            ct.2 + 1))
      else lookupStat "Complexity Level" s := by
  unfold checkComplexity
  by_cases h : hasKey pred "complexity_level" && hasKey actual "Complexity Level"
  · rw [if_pos h, if_pos h, lookupStat_bump, if_pos rfl]
  · rw [if_neg h, if_neg h]

theorem lookupStat_checkType_self (pred actual : PyDict) (s : Stats) :
    lookupStat "Type" (checkType pred actual s) =
      if hasKey pred "type" && hasKey actual "Type" then
        (lookupStat "Type" s).map (fun ct =>
          (ct.1 + (if pyLower (pyStr (getD pred "type" (.VStr ""))) ==
              pyLower (pyStr (getD actual "Type" (.VStr ""))) then 1 else 0),
            ct.2 + 1))
      else lookupStat "Type" s := by
  unfold checkType
  by_cases h : hasKey pred "type" && hasKey actual "Type"
  · rw [if_pos h, if_pos h, lookupStat_bump, if_pos rfl]
  · rw [if_neg h, if_neg h]

theorem lookupStat_checkMaterial_self (pred actual : PyDict) (s : Stats) :
    lookupStat "Material" (checkMaterial pred actual s) =
      if hasKey pred "material" && hasKey actual "Material" then
        (lookupStat "Material" s).map (fun ct =>
          (ct.1 + (if pyIn (pyLower (pyStr (getD pred "material" (.VStr ""))))
                (pyLower (pyStr (getD actual "Material" (.VStr "")))) ||
              pyIn (pyLower (pyStr (getD actual "Material" (.VStr ""))))
                (pyLower (pyStr (getD pred "material" (.VStr ""))))
              then 1 else 0),
            ct.2 + 1))
      else lookupStat "Material" s := by
  unfold checkMaterial
  by_cases h : hasKey pred "material" && hasKey actual "Material"
  · rw [if_pos h, if_pos h, lookupStat_bump, if_pos rfl]
  · rw [if_neg h, if_neg h]

/-- C2 counterexample: a prediction with a `complexity_level` field
matched against a row whose `Complexity Level` *column exists but whose
cell is empty* (pandas NaN): the claim says the parameter is skipped
(total not incremented), but the engine counts it — the ground-truth side
condition is column membership, not a non-null value — and compares the
prediction against the string `"nan"`. -/
theorem c2_counterexample_nan_cell_counted :
    getD [("Part ID", Value.VStr "p1"), ("Complexity Level", Value.VNaN)]
        "Complexity Level" Value.VNull = Value.VNaN ∧
    lookupStat "Complexity Level"
        (calculate_accuracy
          [[("source_file", Value.VStr "p1"), ("complexity_level", Value.VStr "3")]]
          [[("Part ID", Value.VStr "p1"), ("Complexity Level", Value.VNaN)]]
          create_process_map) = some (0, 1) := by
  refine ⟨rfl, by decide⟩

/-- C2 amended: for a matched pair, each categorical parameter's counters
are incremented iff the prediction contains the field key AND the
ground-truth row contains the column — regardless of whether the cell
value is null (a null cell is still counted, compared as the string
`"nan"`).  Complexity Level and Type compare lower-cased strings for
equality; Material counts correct on substring containment in either
direction. -/
theorem c2_amended_categorical_conditions (pred : PyDict) (gt : List PyDict)
    (actual : PyDict) (rest : List PyDict)
    (h : matchRows gt (partIdOf pred) = actual :: rest) :
    lookupStat "Complexity Level" (calculate_accuracy [pred] gt create_process_map) =
      (if hasKey pred "complexity_level" && hasKey actual "Complexity Level" then
        some ((if pyLower (pyStr (getD pred "complexity_level" (.VStr ""))) ==
            pyLower (pyStr (getD actual "Complexity Level" (.VStr ""))) then 1 else 0), 1)
       else some (0, 0)) ∧
    lookupStat "Type" (calculate_accuracy [pred] gt create_process_map) =
      (if hasKey pred "type" && hasKey actual "Type" then
        some ((if pyLower (pyStr (getD pred "type" (.VStr ""))) ==
            pyLower (pyStr (getD actual "Type" (.VStr ""))) then 1 else 0), 1)
       else some (0, 0)) ∧
    lookupStat "Material" (calculate_accuracy [pred] gt create_process_map) =
      (if hasKey pred "material" && hasKey actual "Material" then
        some ((if pyIn (pyLower (pyStr (getD pred "material" (.VStr ""))))
              (pyLower (pyStr (getD actual "Material" (.VStr "")))) ||
            pyIn (pyLower (pyStr (getD actual "Material" (.VStr ""))))
              (pyLower (pyStr (getD pred "material" (.VStr "")))) then 1 else 0), 1)
       else some (0, 0)) := by
  rw [calculate_single_matched pred gt actual rest create_process_map h]
  unfold scoreRecord
  refine ⟨?_, ?_, ?_⟩
  · rw [lookupStat_foldl_proc_ne pred actual create_process_map _ "Complexity Level" (by decide),
      lookupStat_checkMaterial_ne pred actual _ "Complexity Level" (by decide),
      lookupStat_checkType_ne pred actual _ "Complexity Level" (by decide),
      lookupStat_checkComplexity_self pred actual initStats,
      (by decide : lookupStat "Complexity Level" initStats = some (0, 0))]
    split <;> simp
  · rw [lookupStat_foldl_proc_ne pred actual create_process_map _ "Type" (by decide),
      lookupStat_checkMaterial_ne pred actual _ "Type" (by decide),
      lookupStat_checkType_self pred actual _,
      lookupStat_checkComplexity_ne pred actual _ "Type" (by decide),
      (by decide : lookupStat "Type" initStats = some (0, 0))]
    split <;> simp
  · rw [lookupStat_foldl_proc_ne pred actual create_process_map _ "Material" (by decide),
      lookupStat_checkMaterial_self pred actual _,
      lookupStat_checkType_ne pred actual _ "Material" (by decide),
      lookupStat_checkComplexity_ne pred actual _ "Material" (by decide),
      (by decide : lookupStat "Material" initStats = some (0, 0))]
    split <;> simp

/-- Witness for C2 amended: spec scenario D, `material: "Steel"` against
`Material: "Mild Steel"` (counted and correct via substring containment). -/
theorem c2_amended_witness :
    lookupStat "Material"
        (calculate_accuracy
          [[("source_file", Value.VStr "p1"), ("material", Value.VStr "Steel")]]
          [[("Part ID", Value.VStr "p1"), ("Material", Value.VStr "Mild Steel")]]
          create_process_map) =
      (if hasKey [("source_file", Value.VStr "p1"), ("material", Value.VStr "Steel")]
            "material" &&
          hasKey [("Part ID", Value.VStr "p1"), ("Material", Value.VStr "Mild Steel")]
            "Material" then
        some ((if pyIn (pyLower (pyStr (getD [("source_file", Value.VStr "p1"),
                ("material", Value.VStr "Steel")] "material" (.VStr ""))))
              (pyLower (pyStr (getD [("Part ID", Value.VStr "p1"),
                ("Material", Value.VStr "Mild Steel")] "Material" (.VStr "")))) ||
            pyIn (pyLower (pyStr (getD [("Part ID", Value.VStr "p1"),
                ("Material", Value.VStr "Mild Steel")] "Material" (.VStr ""))))
              (pyLower (pyStr (getD [("source_file", Value.VStr "p1"),
                ("material", Value.VStr "Steel")] "material" (.VStr ""))))
            then 1 else 0), 1)
       else some (0, 0)) :=
  (c2_amended_categorical_conditions
    [("source_file", Value.VStr "p1"), ("material", Value.VStr "Steel")]
    [[("Part ID", Value.VStr "p1"), ("Material", Value.VStr "Mild Steel")]]
    [("Part ID", Value.VStr "p1"), ("Material", Value.VStr "Mild Steel")] []
    (by decide)).2.2

/-! ## Claim C7 -/

theorem statsInv_bump (ok : Bool) (k : String) (s : Stats) (h : StatsInv s) :
    StatsInv (bump ok k s) := by
  intro e he
  rcases List.mem_map.mp he with ⟨x, hx, rfl⟩
  have hx2 := h x hx
  by_cases hk : x.1 = k
  · simp only [if_pos hk]
    cases ok <;> simp <;> omega
  · simp only [if_neg hk]
    exact hx2

theorem statsInv_procStep (pred actual : PyDict) (pc : String × String)
    (s : Stats) (h : StatsInv s) : StatsInv (procStep pred actual s pc) := by
  rcases procStep_is_bump pred actual pc with hid | ⟨ok, hb⟩
  · rw [hid]; exact h
  · rw [hb]; exact statsInv_bump ok pc.2 s h

theorem statsInv_checkComplexity (pred actual : PyDict) (s : Stats)
    (h : StatsInv s) : StatsInv (checkComplexity pred actual s) := by
  unfold checkComplexity
  split
  · exact statsInv_bump _ _ _ h
  · exact h

theorem statsInv_checkType (pred actual : PyDict) (s : Stats)
    (h : StatsInv s) : StatsInv (checkType pred actual s) := by
  unfold checkType
  split
  · exact statsInv_bump _ _ _ h
  · exact h

theorem statsInv_checkMaterial (pred actual : PyDict) (s : Stats)
    (h : StatsInv s) : StatsInv (checkMaterial pred actual s) := by
  unfold checkMaterial
  split
  · exact statsInv_bump _ _ _ h
  · exact h

theorem statsInv_foldl_proc (pred actual : PyDict) (pm : List (String × String))
    (s : Stats) (h : StatsInv s) : StatsInv (pm.foldl (procStep pred actual) s) := by
  induction pm generalizing s with
  | nil => exact h
  | cons pc t ih =>
    rw [List.foldl_cons]
    exact ih _ (statsInv_procStep pred actual pc s h)

theorem statsInv_processOne (pm : List (String × String)) (gt : List PyDict)
    (pred : PyDict) (s : Stats) (h : StatsInv s) :
    StatsInv (processOne pm gt s pred) := by
  unfold processOne
  cases hm : matchRows gt (partIdOf pred) with
  | nil => exact h
  | cons a rest =>
    unfold scoreRecord
    exact statsInv_foldl_proc _ _ _ _
      (statsInv_checkMaterial _ _ _ (statsInv_checkType _ _ _
        (statsInv_checkComplexity _ _ _ h)))

theorem statsInv_foldl_preds (pm : List (String × String)) (gt : List PyDict)
    (preds : List PyDict) (s : Stats) (h : StatsInv s) :
    StatsInv (preds.foldl (processOne pm gt) s) := by
  induction preds generalizing s with
  | nil => exact h
  | cons p ps ih =>
    rw [List.foldl_cons]
    exact ih _ (statsInv_processOne pm gt p s h)

/-- C7: after processing any prefix of any prediction sequence against
any ground-truth table (i.e. at every intermediate state, counters
starting from zero), every tracked parameter satisfies
`correct ≤ total`. -/
theorem c7_correct_le_total (preds : List PyDict) (gt : List PyDict)
    (procMap : List (String × String)) (n : Nat) :
    ∀ e ∈ calculate_accuracy (preds.take n) gt procMap, e.2.1 ≤ e.2.2 := by
  have hinit : StatsInv initStats := by
    intro e he
    rcases List.mem_map.mp he with ⟨x, _, rfl⟩
    exact Nat.le_refl 0
  exact statsInv_foldl_preds procMap gt (preds.take n) initStats hinit

/-- Witness for C7 at spec scenario A after one record. -/
theorem c7_witness :
    (("Laser Cut", 1, 1) : String × Nat × Nat).2.1 ≤
      (("Laser Cut", 1, 1) : String × Nat × Nat).2.2 :=
  c7_correct_le_total
    [[("part_name", Value.VStr "bracket_001.pdf"), ("laser_cut", Value.VInt 0),
      ("saw_shear", Value.VInt 1)]]
    [[("Part ID", Value.VStr "bracket_001.pdf"), ("Laser Cut", Value.VInt 0),
      ("Saw/Shear", Value.VInt 1)]]
    create_process_map 1 ("Laser Cut", 1, 1) (by decide)

/-! ## Claim C8 -/

theorem bump_bump (o1 : Bool) (k1 : String) (o2 : Bool) (k2 : String) (s : Stats) :
    bump o1 k1 (bump o2 k2 s) = bump o2 k2 (bump o1 k1 s) := by
  unfold bump
  rw [List.map_map, List.map_map]
  apply List.map_congr_left
  intro e _
  dsimp only [Function.comp]
  by_cases h1 : e.1 = k1 <;> by_cases h2 : e.1 = k2
  · have hk : k1 = k2 := h1.symm.trans h2
    simp [h1, h2, hk, Nat.add_right_comm]
  · have hk : ¬ k1 = k2 := fun hh => h2 (h1.trans hh)
    simp [h1, h2, hk]
  · have hk : ¬ k2 = k1 := fun hh => h1 (h2.trans hh)
    simp [h1, h2, hk]
  · simp [h1, h2]

theorem procStep_bump_comm (pred actual : PyDict) (pc : String × String)
    (o : Bool) (k : String) (s : Stats) :
    procStep pred actual (bump o k s) pc = bump o k (procStep pred actual s pc) := by
  rcases procStep_is_bump pred actual pc with hid | ⟨ok2, hb⟩
  · rw [hid, hid]
  · rw [hb, hb, bump_bump]

theorem checkComplexity_bump_comm (pred actual : PyDict) (o : Bool) (k : String)
    (s : Stats) :
    checkComplexity pred actual (bump o k s) = bump o k (checkComplexity pred actual s) := by
  unfold checkComplexity
  split
  · exact bump_bump _ _ _ _ _
  · rfl

theorem checkType_bump_comm (pred actual : PyDict) (o : Bool) (k : String)
    (s : Stats) :
    checkType pred actual (bump o k s) = bump o k (checkType pred actual s) := by
  unfold checkType
  split
  · exact bump_bump _ _ _ _ _
  · rfl

theorem checkMaterial_bump_comm (pred actual : PyDict) (o : Bool) (k : String)
    (s : Stats) :
    checkMaterial pred actual (bump o k s) = bump o k (checkMaterial pred actual s) := by
  unfold checkMaterial
  split
  · exact bump_bump _ _ _ _ _
  · rfl

theorem foldl_proc_bump_comm (pred actual : PyDict) (pm : List (String × String))
    (o : Bool) (k : String) (s : Stats) :
    pm.foldl (procStep pred actual) (bump o k s) =
      bump o k (pm.foldl (procStep pred actual) s) := by
  induction pm generalizing s with
  | nil => rfl
  | cons pc t ih =>
    rw [List.foldl_cons, List.foldl_cons, procStep_bump_comm]
    exact ih _

theorem scoreRecord_bump_comm (pm : List (String × String)) (pred actual : PyDict)
    (o : Bool) (k : String) (s : Stats) :
    scoreRecord pm pred actual (bump o k s) = bump o k (scoreRecord pm pred actual s) := by
  unfold scoreRecord
  rw [checkComplexity_bump_comm, checkType_bump_comm, checkMaterial_bump_comm,
    foldl_proc_bump_comm]

theorem processOne_bump_comm (pm : List (String × String)) (gt : List PyDict)
    (pred : PyDict) : BumpComm (fun s => processOne pm gt s pred) := by
  intro o k s
  show processOne pm gt (bump o k s) pred = bump o k (processOne pm gt s pred)
  unfold processOne
  cases hm : matchRows gt (partIdOf pred) with
  | nil => rfl
  | cons a rest => exact scoreRecord_bump_comm pm pred a o k s

theorem bumpComm_procStep_push {f : Stats → Stats} (hf : BumpComm f)
    (pred actual : PyDict) (pc : String × String) (s : Stats) :
    f (procStep pred actual s pc) = procStep pred actual (f s) pc := by
  rcases procStep_is_bump pred actual pc with hid | ⟨ok2, hb⟩
  · rw [hid, hid]
  · rw [hb, hb, hf]

theorem bumpComm_checkComplexity_push {f : Stats → Stats} (hf : BumpComm f)
    (pred actual : PyDict) (s : Stats) :
    f (checkComplexity pred actual s) = checkComplexity pred actual (f s) := by
  unfold checkComplexity
  split
  · exact hf _ _ _
  · rfl

theorem bumpComm_checkType_push {f : Stats → Stats} (hf : BumpComm f)
    (pred actual : PyDict) (s : Stats) :
    f (checkType pred actual s) = checkType pred actual (f s) := by
  unfold checkType
  split
  · exact hf _ _ _
  · rfl

theorem bumpComm_checkMaterial_push {f : Stats → Stats} (hf : BumpComm f)
    (pred actual : PyDict) (s : Stats) :
    f (checkMaterial pred actual s) = checkMaterial pred actual (f s) := by
  unfold checkMaterial
  split
  · exact hf _ _ _
  · rfl

theorem bumpComm_foldl_proc_push {f : Stats → Stats} (hf : BumpComm f)
    (pred actual : PyDict) (pm : List (String × String)) (s : Stats) :
    f (pm.foldl (procStep pred actual) s) = pm.foldl (procStep pred actual) (f s) := by
  induction pm generalizing s with
  | nil => rfl
  | cons pc t ih =>
    rw [List.foldl_cons, List.foldl_cons, ih _, bumpComm_procStep_push hf]

theorem bumpComm_processOne_push {f : Stats → Stats} (hf : BumpComm f)
    (pm : List (String × String)) (gt : List PyDict) (pred : PyDict) (s : Stats) :
    f (processOne pm gt s pred) = processOne pm gt (f s) pred := by
  unfold processOne
  cases hm : matchRows gt (partIdOf pred) with
  | nil => rfl
  | cons a rest =>
    unfold scoreRecord
    rw [bumpComm_foldl_proc_push hf, bumpComm_checkMaterial_push hf,
      bumpComm_checkType_push hf, bumpComm_checkComplexity_push hf]

theorem processOne_swap (pm : List (String × String)) (gt : List PyDict)
    (p1 p2 : PyDict) (s : Stats) :
    processOne pm gt (processOne pm gt s p1) p2 =
      processOne pm gt (processOne pm gt s p2) p1 := by
  have h := bumpComm_processOne_push (processOne_bump_comm pm gt p2) pm gt p1 s
  exact h

/-- C8: processing a fixed prediction list in any permutation yields
identical final counters for every parameter (accumulation commutes). -/
theorem c8_order_independence (preds1 preds2 : List PyDict) (gt : List PyDict)
    (procMap : List (String × String)) (h : List.Perm preds1 preds2) :
    calculate_accuracy preds1 gt procMap = calculate_accuracy preds2 gt procMap := by
  unfold calculate_accuracy
  exact h.foldl_eq' (fun x _ y _ z => processOne_swap procMap gt x y z) initStats

/-- Witness for C8: two concrete predictions processed in both orders. -/
theorem c8_witness :
    calculate_accuracy
        [[("source_file", Value.VStr "a1"), ("laser_cut", Value.VInt 1)],
         [("source_file", Value.VStr "b2"), ("plating", Value.VInt 0)]]
        [[("Part ID", Value.VStr "a1"), ("Laser Cut", Value.VInt 1)],
         [("Part ID", Value.VStr "b2"), ("Plating", Value.VInt 1)]]
        create_process_map =
      calculate_accuracy
        [[("source_file", Value.VStr "b2"), ("plating", Value.VInt 0)],
         [("source_file", Value.VStr "a1"), ("laser_cut", Value.VInt 1)]]
        [[("Part ID", Value.VStr "a1"), ("Laser Cut", Value.VInt 1)],
         [("Part ID", Value.VStr "b2"), ("Plating", Value.VInt 1)]]
        create_process_map :=
  c8_order_independence _ _ _ _
    (List.Perm.swap [("source_file", Value.VStr "b2"), ("plating", Value.VInt 0)]
      [("source_file", Value.VStr "a1"), ("laser_cut", Value.VInt 1)] [])

/-! ## Claim C10 -/

theorem keys_procStep (pred actual : PyDict) (pc : String × String) (s : Stats) :
    (procStep pred actual s pc).map (fun e => e.1) = s.map (fun e => e.1) := by
  rcases procStep_is_bump pred actual pc with hid | ⟨ok, hb⟩
  · rw [hid]
  · rw [hb, bump_keys]

theorem keys_checkComplexity (pred actual : PyDict) (s : Stats) :
    (checkComplexity pred actual s).map (fun e => e.1) = s.map (fun e => e.1) := by
  unfold checkComplexity
  split
  · exact bump_keys _ _ _
  · rfl

theorem keys_checkType (pred actual : PyDict) (s : Stats) :
    (checkType pred actual s).map (fun e => e.1) = s.map (fun e => e.1) := by
  unfold checkType
  split
  · exact bump_keys _ _ _
  · rfl

theorem keys_checkMaterial (pred actual : PyDict) (s : Stats) :
    (checkMaterial pred actual s).map (fun e => e.1) = s.map (fun e => e.1) := by
  unfold checkMaterial
  split
  · exact bump_keys _ _ _
  · rfl

theorem keys_foldl_proc (pred actual : PyDict) (pm : List (String × String)) (s : Stats) :
    (pm.foldl (procStep pred actual) s).map (fun e => e.1) = s.map (fun e => e.1) := by
  induction pm generalizing s with
  | nil => rfl
  | cons pc t ih =>
    rw [List.foldl_cons, ih _, keys_procStep]

theorem keys_processOne (pm : List (String × String)) (gt : List PyDict)
    (pred : PyDict) (s : Stats) :
    (processOne pm gt s pred).map (fun e => e.1) = s.map (fun e => e.1) := by
  unfold processOne
  cases hm : matchRows gt (partIdOf pred) with
  | nil => rfl
  | cons a rest =>
    unfold scoreRecord
    rw [keys_foldl_proc, keys_checkMaterial, keys_checkType, keys_checkComplexity]

theorem keys_foldl_preds (pm : List (String × String)) (gt : List PyDict)
    (preds : List PyDict) (s : Stats) :
    (preds.foldl (processOne pm gt) s).map (fun e => e.1) = s.map (fun e => e.1) := by
  induction preds generalizing s with
  | nil => rfl
  | cons p ps ih =>
    rw [List.foldl_cons, ih _, keys_processOne]

theorem hasKey_append_ne (pred : PyDict) (k k2 : String) (v : Value) (h : k2 ≠ k) :
    hasKey (pred ++ [(k, v)]) k2 = hasKey pred k2 := by
  have hne : (k == k2) = false := beq_eq_false_iff_ne.mpr fun hh => h hh.symm
  simp [hasKey, List.any_append, hne]

theorem lookup_append_ne (pred : PyDict) (k k2 : String) (v : Value) (h : k2 ≠ k) :
    (pred ++ [(k, v)]).lookup k2 = pred.lookup k2 := by
  induction pred with
  | nil =>
    simp [List.lookup, beq_eq_false_iff_ne.mpr h]
  | cons e t ih =>
    obtain ⟨a, b⟩ := e
    rw [List.cons_append]
    cases hab : k2 == a <;> simp [List.lookup_cons, hab, ih]

theorem getD_append_ne (pred : PyDict) (k k2 : String) (v d : Value) (h : k2 ≠ k) :
    getD (pred ++ [(k, v)]) k2 d = getD pred k2 d := by
  unfold getD
  rw [lookup_append_ne _ _ _ _ h]

theorem partIdOf_append_ne (pred : PyDict) (k : String) (v : Value)
    (h1 : k ≠ "part_identifier") (h2 : k ≠ "part_name") (h3 : k ≠ "source_file") :
    partIdOf (pred ++ [(k, v)]) = partIdOf pred := by
  unfold partIdOf
  rw [lookup_append_ne _ _ _ _ (Ne.symm h1), lookup_append_ne _ _ _ _ (Ne.symm h2),
    lookup_append_ne _ _ _ _ (Ne.symm h3)]

theorem procStep_append_ne (pred actual : PyDict) (k : String) (v : Value)
    (pc : String × String) (s : Stats)
    (hpk : k ≠ pc.1) (hfab : k ≠ "fab") (hweld : k ≠ "weld")
    (hpress : k ≠ "press") (hins : k ≠ "inserts") :
    procStep (pred ++ [(k, v)]) actual s pc = procStep pred actual s pc := by
  unfold procStep
  rw [hasKey_append_ne _ _ _ _ (Ne.symm hpk), getD_append_ne _ _ _ _ _ (Ne.symm hfab),
    getD_append_ne _ _ _ _ _ (Ne.symm hweld), getD_append_ne _ _ _ _ _ (Ne.symm hpress),
    getD_append_ne _ _ _ _ _ (Ne.symm hins), getD_append_ne _ _ _ _ _ (Ne.symm hpk)]

theorem checkComplexity_append_ne (pred actual : PyDict) (k : String) (v : Value)
    (s : Stats) (h : k ≠ "complexity_level") :
    checkComplexity (pred ++ [(k, v)]) actual s = checkComplexity pred actual s := by
  unfold checkComplexity
  rw [hasKey_append_ne _ _ _ _ (Ne.symm h), getD_append_ne _ _ _ _ _ (Ne.symm h)]

theorem checkType_append_ne (pred actual : PyDict) (k : String) (v : Value)
    (s : Stats) (h : k ≠ "type") :
    checkType (pred ++ [(k, v)]) actual s = checkType pred actual s := by
  unfold checkType
  rw [hasKey_append_ne _ _ _ _ (Ne.symm h), getD_append_ne _ _ _ _ _ (Ne.symm h)]

theorem checkMaterial_append_ne (pred actual : PyDict) (k : String) (v : Value)
    (s : Stats) (h : k ≠ "material") :
    checkMaterial (pred ++ [(k, v)]) actual s = checkMaterial pred actual s := by
  unfold checkMaterial
  rw [hasKey_append_ne _ _ _ _ (Ne.symm h), getD_append_ne _ _ _ _ _ (Ne.symm h)]

theorem foldl_proc_append_ne (pred actual : PyDict) (k : String) (v : Value)
    (pm : List (String × String)) (s : Stats)
    (hmem : ∀ pc ∈ pm, k ≠ pc.1) (hfab : k ≠ "fab") (hweld : k ≠ "weld")
    (hpress : k ≠ "press") (hins : k ≠ "inserts") :
    pm.foldl (procStep (pred ++ [(k, v)]) actual) s = pm.foldl (procStep pred actual) s := by
  induction pm generalizing s with
  | nil => rfl
  | cons pc t ih =>
    rw [List.foldl_cons, List.foldl_cons,
      procStep_append_ne pred actual k v pc s (hmem pc (List.mem_cons_self pc t))
        hfab hweld hpress hins]
    exact ih _ fun x hx => hmem x (List.mem_cons_of_mem _ hx)

/-- C10 counterexample: `part_identifier` is neither a categorical key
nor a process-map key, yet adding it to a prediction changes the
counters: it redirects the identifier chain, the record no longer
matches, and `Laser Cut` drops from `(1, 1)` to `(0, 0)`. -/
theorem c10_counterexample_identifier_key :
    ("part_identifier" ∉ ["complexity_level", "type", "material"] ∧
      "part_identifier" ∉ create_process_map.map (fun pc => pc.1)) ∧
    calculate_accuracy
        [[("source_file", Value.VStr "p1"), ("laser_cut", Value.VInt 1),
          ("part_identifier", Value.VStr "zzz")]]
        [[("Part ID", Value.VStr "p1"), ("Laser Cut", Value.VInt 1)]]
        create_process_map ≠
      calculate_accuracy
        [[("source_file", Value.VStr "p1"), ("laser_cut", Value.VInt 1)]]
        [[("Part ID", Value.VStr "p1"), ("Laser Cut", Value.VInt 1)]]
        create_process_map := by
  exact ⟨by decide, by decide⟩

/-- C10 amended: the result of a run carries exactly the 17 tracked
parameter names, in order, each starting from `{0, 0}` (no key is ever
added or removed); and a prediction field whose key is neither an
identifier key (`part_identifier`/`part_name`/`source_file`), nor a
categorical key, nor a process-map key, never changes any counter (the
original claim failed to except the identifier keys). -/
theorem c10_amended_fixed_parameter_set :
    (∀ preds gt, (calculate_accuracy preds gt create_process_map).map (fun e => e.1) =
      initialize_parameters) ∧
    (∀ gt, calculate_accuracy [] gt create_process_map = initStats) ∧
    (∀ k, k ∉ relevantKeys → ∀ (v : Value) (pred : PyDict) gt s,
      processOne create_process_map gt s (pred ++ [(k, v)]) =
        processOne create_process_map gt s pred) := by
  refine ⟨?_, fun gt => rfl, ?_⟩
  · intro preds gt
    unfold calculate_accuracy
    rw [keys_foldl_preds]
    simp [initStats, initialize_parameters]
  · intro k hk v pred gt s
    have h0 : ∀ x ∈ relevantKeys, k ≠ x := fun x hx hh => hk (hh ▸ hx)
    have hpi : k ≠ "part_identifier" := h0 _ (by decide)
    have hpn : k ≠ "part_name" := h0 _ (by decide)
    have hsf : k ≠ "source_file" := h0 _ (by decide)
    have hcl : k ≠ "complexity_level" := h0 _ (by decide)
    have hty : k ≠ "type" := h0 _ (by decide)
    have hma : k ≠ "material" := h0 _ (by decide)
    have hfab : k ≠ "fab" := h0 _ (by decide)
    have hweld : k ≠ "weld" := h0 _ (by decide)
    have hpress : k ≠ "press" := h0 _ (by decide)
    have hins : k ≠ "inserts" := h0 _ (by decide)
    have hmem : ∀ pc ∈ create_process_map, k ≠ pc.1 := by
      intro pc hpc
      refine h0 pc.1 ?_
      unfold relevantKeys
      exact List.mem_append_right _ (List.mem_map_of_mem _ hpc)
    unfold processOne
    rw [partIdOf_append_ne pred k v hpi hpn hsf]
    cases hm : matchRows gt (partIdOf pred) with
    | nil => rfl
    | cons a rest =>
      show scoreRecord create_process_map (pred ++ [(k, v)]) a s =
        scoreRecord create_process_map pred a s
      unfold scoreRecord
      rw [checkComplexity_append_ne _ _ _ _ _ hcl, checkType_append_ne _ _ _ _ _ hty,
        checkMaterial_append_ne _ _ _ _ _ hma,
        foldl_proc_append_ne _ _ _ _ _ _ hmem hfab hweld hpress hins]

/-- Witness for C10 amended: appending an unknown field `custom_note`
leaves the run's outcome unchanged. -/
theorem c10_amended_witness :
    processOne create_process_map
        [[("Part ID", Value.VStr "p1"), ("Laser Cut", Value.VInt 1)]] initStats
        ([("source_file", Value.VStr "p1"), ("laser_cut", Value.VInt 1)] ++
          [("custom_note", Value.VStr "x")]) =
      processOne create_process_map
        [[("Part ID", Value.VStr "p1"), ("Laser Cut", Value.VInt 1)]] initStats
        [("source_file", Value.VStr "p1"), ("laser_cut", Value.VInt 1)] :=
  c10_amended_fixed_parameter_set.2.2 "custom_note" (by decide) (Value.VStr "x")
    [("source_file", Value.VStr "p1"), ("laser_cut", Value.VInt 1)]
    [[("Part ID", Value.VStr "p1"), ("Laser Cut", Value.VInt 1)]] initStats

end AccuracyValidation
